import Mathlib

/-!
Shallow embedding of the project-consultant single-page application
(`src/index.tsx`): the project data model, the state-merge reducer that
folds an LLM-provided `consultancyUpdate` payload into the project
document, the send-guard logic of the UI event handlers, and the
conversational-turn orchestration of `handleSendMessage` /
`handleTaskStatusChange`.

JavaScript conventions carried over explicitly:
- optional / absent JSON fields become `Option`;
- string truthiness (`x || y` where `x` is a possibly-absent string and
  the empty string is falsy) becomes `jsOrString`;
- number truthiness (`x || 0`) becomes `Option.getD 0` (sound because
  `0 || 0` is `0` in JavaScript as well);
- `generateId()` (timestamp + random suffix) becomes a deterministic
  generator threaded through as a `Nat` counter, producing a distinct
  string per counter value.
-/

namespace ProjectConsultant

/-- `Task.status` enumeration from `index.tsx` line 13. -/
inductive TaskStatus where
  | notStarted
  | inProgress
  | completed
  | blocked
deriving DecidableEq, Repr

/-- `Task` interface, `index.tsx` lines 9-15 (recursive `subtasks`). -/
structure Task where
  id : String
  name : String
  description : String
  status : TaskStatus
  subtasks : List Task

/-- `Stakeholder` interface, lines 17-21. -/
structure Stakeholder where
  name : String
  role : String
  contact : String
deriving DecidableEq, Repr

/-- `Blocker` interface, lines 23-27. -/
structure Blocker where
  id : String
  description : String
  resolved : Bool
deriving DecidableEq, Repr

/-- `Resource.type` enumeration, line 31. -/
inductive ResourceType where
  | tool
  | library
  | documentation
  | humanResource
deriving DecidableEq, Repr

/-- `Resource` interface, lines 29-34. -/
structure Resource where
  name : String
  type : ResourceType
  url : Option String
  description : String
deriving DecidableEq, Repr

/-- The `priorities` sub-object of `Project`, lines 42-45. -/
structure Priorities where
  speed : Int
  scope : Int
deriving DecidableEq, Repr

/-- The `timeline` sub-object of `Project`, lines 47-50. -/
structure Timeline where
  startDate : String
  targetDate : String
deriving DecidableEq, Repr

/-- `Project` interface, lines 36-54. -/
structure Project where
  projectName : String
  projectType : String
  projectGoals : List String
  tasks : List Task
  progress : Int
  priorities : Priorities
  stakeholders : List Stakeholder
  timeline : Timeline
  blockers : List Blocker
  resources : List Resource
  suggestedActions : List String

/-- `ChatMessage.sender`, line 57. -/
inductive Sender where
  | user
  | ai
deriving DecidableEq, Repr

/-- `ChatMessage` interface, lines 56-60. -/
structure ChatMessage where
  sender : Sender
  text : String
  timestamp : String
deriving DecidableEq, Repr

/-- The three pieces of React state held by `App`, lines 487-489. -/
structure AppState where
  project : Option Project
  chatHistory : List ChatMessage
  isLoading : Bool

/-! ## The `nextStep` update payload (schema lines 100-148) -/

/-- `taskUpdates[].action` enumeration, line 138. -/
inductive TaskAction where
  | add
  | remove
  | update
  | complete
deriving DecidableEq, Repr

/-- One entry of `consultancyUpdate.taskUpdates`, lines 131-141:
`taskId`, `description`, `status` optional; `name` and `action` required. -/
structure TaskUpdate where
  taskId : Option String
  name : String
  description : Option String
  status : Option TaskStatus
  action : TaskAction
deriving DecidableEq, Repr

/-- `consultancyUpdate.priorityUpdate`, lines 109-116 (both fields optional). -/
structure PriorityUpdate where
  speed : Option Int
  scope : Option Int
deriving DecidableEq, Repr

/-- One entry of `consultancyUpdate.blockers`, lines 117-127. -/
structure BlockerInput where
  description : String
deriving DecidableEq, Repr

/-- `consultancyUpdate`, lines 103-145.  `progressUpdate` is kept optional
because the reducer reads it as `update.progressUpdate || 0`. -/
structure ConsultancyUpdate where
  responseText : String
  suggestedActions : List String
  progressUpdate : Option Int
  priorityUpdate : Option PriorityUpdate
  blockers : Option (List BlockerInput)
  taskUpdates : Option (List TaskUpdate)

/-! ## Helper functions -/

/-- `generateId`, line 152: a fresh string identifier per call.  The
timestamp-plus-random source is modelled as a counter. -/
def generateId (g : Nat) : String := "id_" ++ toString g

/-- JavaScript `x || y` on a possibly-absent string: absent and the empty
string are falsy, any other string wins. -/
def jsOrString (x : Option String) (y : String) : String :=
  match x with
  | some s => if s = "" then y else s
  | none => y

/-! ## Project state reducer (`setProject` updater inside
`handleSendMessage`, lines 587-644) -/

/-- `newTasks.findIndex(t => t.id === taskUpdate.taskId || t.name ===
taskUpdate.name)`, line 593: one pass; a task matches when its id equals
the `taskId` of the update (strict equality, so an absent `taskId` matches
no id) or its name equals the `name` of the update. -/
def findExistingTaskIndex (tasks : List Task) (u : TaskUpdate) : Option Nat :=
  tasks.findIdx? (fun t => u.taskId == some t.id || t.name == u.name)

/-- In-place assignment at an index, `newTasks[existingTaskIndex] = ...`
(line 609); out-of-range indices leave the list unchanged, matching the
source where the index always comes from a successful `findIndex`. -/
def updateAt {α : Type} : List α → Nat → (α → α) → List α
  | [], _, _ => []
  | x :: xs, 0, f => f x :: xs
  | x :: xs, n + 1, f => x :: updateAt xs n f

/-- The task appended by `action === "add"` when no task matched,
lines 597-603. -/
def newTaskOf (g : Nat) (u : TaskUpdate) : Task :=
  { id := generateId g
    name := u.name
    description := jsOrString u.description ""
    status := u.status.getD TaskStatus.notStarted
    subtasks := [] }

/-- The partial patch applied on `action === "update" | "complete"`,
lines 609-614: each of `name`/`description`/`status` is overwritten only
when the update supplies a truthy (present, non-empty) value. -/
def patchTask (t : Task) (u : TaskUpdate) : Task :=
  { t with
    name := jsOrString (some u.name) t.name
    description := jsOrString u.description t.description
    status := u.status.getD t.status }

/-- One iteration of the `update.taskUpdates.forEach` loop, lines 592-617,
threading the fresh-id counter. -/
def applyTaskUpdate (st : List Task × Nat) (u : TaskUpdate) : List Task × Nat :=
  let tasks := st.1
  let g := st.2
  match findExistingTaskIndex tasks u with
  | none =>
      if u.action = TaskAction.add then (tasks ++ [newTaskOf g u], g + 1)
      else (tasks, g)
  | some i =>
      match u.action with
      | TaskAction.add => (tasks, g)
      | TaskAction.remove => (tasks.eraseIdx i, g)
      | _ => (updateAt tasks i (fun t => patchTask t u), g)

/-- The whole `taskUpdates` pass, lines 591-618: entries are processed in
order, later entries seeing the effect of earlier ones; an absent
`taskUpdates` field skips the pass. -/
def applyTaskUpdates (tasks : List Task) (g : Nat)
    (us : Option (List TaskUpdate)) : List Task × Nat :=
  match us with
  | none => (tasks, g)
  | some l => l.foldl applyTaskUpdate (tasks, g)

/-- `Math.max(0, Math.min(100, prevProject.progress +
(update.progressUpdate || 0)))`, line 620. -/
def clampProgress (p : Int) (d : Option Int) : Int :=
  max 0 (min 100 (p + d.getD 0))

/-- The `update.blockers.forEach` pass, lines 622-631: each input entry
appends one new unresolved blocker with a fresh id. -/
def applyBlockers (bs : List Blocker) (g : Nat)
    (inputs : Option (List BlockerInput)) : List Blocker × Nat :=
  match inputs with
  | none => (bs, g)
  | some l =>
      l.foldl (fun st b => (st.1 ++ [⟨generateId st.2, b.description, false⟩], st.2 + 1)) (bs, g)

/-- The `priorities` merge of the returned project, lines 639-642. -/
def applyPriorities (p : Priorities) (pu : Option PriorityUpdate) : Priorities :=
  match pu with
  | none => p
  | some u => ⟨p.speed + u.speed.getD 0, p.scope + u.scope.getD 0⟩

/-- The full `setProject` updater body, lines 587-644: the next project
document from the previous one and a `consultancyUpdate` payload, paired
with the advanced fresh-id counter (task ids are drawn before blocker
ids, matching source order). -/
def applyUpdate (project : Project) (update : ConsultancyUpdate) (g : Nat) :
    Project × Nat :=
  let tu := applyTaskUpdates project.tasks g update.taskUpdates
  let bl := applyBlockers project.blockers tu.2 update.blockers
  ({ project with
      tasks := tu.1
      progress := clampProgress project.progress update.progressUpdate
      blockers := bl.1
      suggestedActions := update.suggestedActions
      priorities := applyPriorities project.priorities update.priorityUpdate },
   bl.2)

/-! ## Conversation orchestration (`handleSendMessage`, lines 564-664) -/

/-- The fixed apology text appended on a gateway failure, line 657. -/
def apologyText : String := "Sorry, I encountered an error. Please try again."

/-- One full conversational turn of `handleSendMessage`, lines 564-664.
The asynchronous gateway call (network, JSON parse, schema validation) is
passed in as its outcome `result`: `Except.error` covers every failure
mode, which in the source raises before `setProject` runs.  `now` stands
for the timestamps taken during the turn; `g` is the fresh-id counter.
The returned state is the state after the `finally` block. -/
def handleSendMessage (s : AppState) (message : String) (now : String)
    (result : Except Unit ConsultancyUpdate) (g : Nat) : AppState × Nat :=
  match s.project with
  | none => (s, g)
  | some project =>
    let userMessage : ChatMessage := ⟨Sender.user, message, now⟩
    let chatAfterUser := s.chatHistory ++ [userMessage]
    match result with
    | Except.error _ =>
        ({ project := some project
           chatHistory := chatAfterUser ++ [⟨Sender.ai, apologyText, now⟩]
           isLoading := false }, g)
    | Except.ok update =>
        let pr := applyUpdate project update g
        ({ project := some pr.1
           chatHistory := chatAfterUser ++ [⟨Sender.ai, update.responseText, now⟩]
           isLoading := false }, pr.2)

/-- The synthesized user message sent by `handleTaskStatusChange`, line 669. -/
def completedTaskMessage (taskName : String) : String :=
  "I have just completed the task: \"" ++ taskName ++ "\"."

/-- `handleTaskStatusChange`, lines 666-671, taken through the full turn it
triggers: it looks the task up by id in the current project, and only when
one is found and the requested status is `Completed` does it call
`handleSendMessage` with the synthesized message; in every other case it
returns without touching any state. -/
def handleTaskStatusChange (s : AppState) (taskId : String) (status : TaskStatus)
    (now : String) (result : Except Unit ConsultancyUpdate) (g : Nat) :
    AppState × Nat :=
  match s.project with
  | none => (s, g)
  | some p =>
    match p.tasks.find? (fun t => t.id == taskId) with
    | some task =>
        if status = TaskStatus.completed then
          handleSendMessage s (completedTaskMessage task.name) now result g
        else (s, g)
    | none => (s, g)

/-! ## User-initiated send events and their guards

The three ways a user can cause a gateway `nextStep` call:
`ActionPanel.handleSend` (manual text, lines 384-389, guarded by
`message.trim() && !isLoading`), `ActionPanel.handleSuggestedSend`
(suggested-action chip, lines 391-395, guarded by `!isLoading`), and the
per-task "Mark as Completed" button, which calls `handleTaskStatusChange`
(lines 316, 666-671) with no `isLoading` guard anywhere on its path. -/

/-- A user-initiated send event. -/
inductive SendEvent where
  | manualSend (message : String)
  | suggestedAction (action : String)
  | markCompleted (taskId : String) (status : TaskStatus)
deriving DecidableEq, Repr

/-- Whether the event reaches `handleSendMessage` (starts a gateway call)
given the current project and loading flag, read off the three handlers. -/
def sendFires (project : Project) (isLoading : Bool) (e : SendEvent) : Bool :=
  match e with
  | SendEvent.manualSend message => !(message.trim == "") && !isLoading
  | SendEvent.suggestedAction _ => !isLoading
  | SendEvent.markCompleted taskId status =>
      (project.tasks.find? (fun t => t.id == taskId)).isSome
        && status == TaskStatus.completed

/-! ## Spec-side definitions (for refinement claims only) -/

/-- Target-task resolution as the spec words it: match `taskId` against
existing task ids first, and only if no task matches by id match `name`
against existing task names; first match wins in each pass. -/
def resolveTargetSpec (tasks : List Task) (u : TaskUpdate) : Option Nat :=
  match tasks.findIdx? (fun t => u.taskId == some t.id) with
  | some i => some i
  | none => tasks.findIdx? (fun t => t.name == u.name)

/-- The blockers appended by `applyBlockers` starting from counter `g`:
one per input, in input order, with consecutive fresh ids. -/
def freshBlockersFrom (g : Nat) : List BlockerInput → List Blocker
  | [] => []
  | b :: l => ⟨generateId g, b.description, false⟩ :: freshBlockersFrom (g + 1) l

/-! ## Helper lemmas -/

theorem findIdx?_cons_eq {α : Type} (p : α → Bool) (a : α) (l : List α) :
    (a :: l).findIdx? p = if p a then some 0 else (l.findIdx? p).map (· + 1) := by
  simp [List.findIdx?_cons, List.findIdx?_succ]

/-- `findIdx?` returns `some i` exactly when the element at `i` satisfies
the predicate and no earlier element does: first match wins. -/
theorem findIdx?_eq_some_char {α : Type} (p : α → Bool) (l : List α) (i : Nat) :
    l.findIdx? p = some i ↔
      ∃ x, l[i]? = some x ∧ p x = true ∧ ∀ y ∈ l.take i, p y = false := by
  induction l generalizing i with
  | nil => simp [List.findIdx?_nil]
  | cons a l ih =>
    rw [findIdx?_cons_eq]
    by_cases hpa : p a = true
    · rw [if_pos hpa]
      cases i with
      | zero => simp [hpa]
      | succ j =>
        simp only [List.getElem?_cons_succ, List.take_succ_cons]
        constructor
        · intro h; cases h
        · rintro ⟨x, hx, hpx, hall⟩
          have h1 := hall a (by simp)
          rw [hpa] at h1; cases h1
    · have hpa' : p a = false := by simpa using hpa
      rw [if_neg hpa]
      cases i with
      | zero =>
        simp only [List.getElem?_cons_zero, List.take_zero]
        constructor
        · intro h
          rcases Option.map_eq_some'.mp h with ⟨j, _, hj⟩
          omega
        · rintro ⟨x, hx, hpx, -⟩
          injection hx with hx
          subst hx
          rw [hpa'] at hpx; cases hpx
      | succ j =>
        simp only [List.getElem?_cons_succ, List.take_succ_cons]
        constructor
        · intro h
          rcases Option.map_eq_some'.mp h with ⟨k, hk, hkj⟩
          have hkj' : k = j := by omega
          subst hkj'
          rcases (ih k).mp hk with ⟨x, hx, hpx, hall⟩
          refine ⟨x, hx, hpx, ?_⟩
          intro y hy
          rcases List.mem_cons.mp hy with h1 | h2
          · subst h1; exact hpa'
          · exact hall y h2
        · rintro ⟨x, hx, hpx, hall⟩
          have h1 : l.findIdx? p = some j :=
            (ih j).mpr ⟨x, hx, hpx, fun y hy => hall y (List.mem_cons_of_mem _ hy)⟩
          simp [h1]

/-- Assignment at a valid index splits the list around the changed cell. -/
theorem updateAt_eq_of_getElem? {α : Type} (l : List α) (i : Nat) (f : α → α)
    (x : α) (hx : l[i]? = some x) :
    updateAt l i f = l.take i ++ f x :: l.drop (i + 1) := by
  induction l generalizing i with
  | nil => cases hx
  | cons a l ih =>
    cases i with
    | zero =>
      simp only [List.getElem?_cons_zero] at hx
      injection hx with hx
      subst hx
      rfl
    | succ n =>
      simp only [List.getElem?_cons_succ] at hx
      simp [updateAt, List.take_succ_cons, List.drop_succ_cons, ih n hx]

theorem jsOrString_none (y : String) : jsOrString none y = y := rfl

theorem jsOrString_empty_default (d : Option String) :
    jsOrString d "" = d.getD "" := by
  cases d with
  | none => rfl
  | some s =>
    by_cases hs : s = ""
    · simp [jsOrString, hs]
    · simp [jsOrString, hs]

theorem applyBlockers_none (bs : List Blocker) (g : Nat) :
    applyBlockers bs g none = (bs, g) := rfl

/-- The blocker pass appends exactly one fresh blocker per input entry, in
input order, and advances the counter by the number of entries. -/
theorem applyBlockers_some (bs : List Blocker) (g : Nat) (l : List BlockerInput) :
    applyBlockers bs g (some l) = (bs ++ freshBlockersFrom g l, g + l.length) := by
  induction l generalizing bs g with
  | nil => simp [applyBlockers, freshBlockersFrom]
  | cons b l ih =>
    show List.foldl _ (bs, g) (b :: l) = _
    rw [List.foldl_cons]
    have h1 := ih (bs ++ [⟨generateId g, b.description, false⟩]) (g + 1)
    have h2 : List.foldl
        (fun st b2 => (st.1 ++ [⟨generateId st.2, b2.description, false⟩], st.2 + 1))
        (bs ++ [⟨generateId g, b.description, false⟩], g + 1) l
        = (bs ++ [⟨generateId g, b.description, false⟩] ++ freshBlockersFrom (g + 1) l,
           g + 1 + l.length) := h1
    rw [h2, freshBlockersFrom]
    rw [List.append_assoc, List.singleton_append]
    congr 1
    simp only [List.length_cons]
    omega

theorem freshBlockersFrom_length (g : Nat) (l : List BlockerInput) :
    (freshBlockersFrom g l).length = l.length := by
  induction l generalizing g with
  | nil => rfl
  | cons b l ih => simp [freshBlockersFrom, ih]

theorem freshBlockersFrom_getElem? (g k : Nat) (l : List BlockerInput)
    (b : BlockerInput) (hb : l[k]? = some b) :
    (freshBlockersFrom g l)[k]? = some ⟨generateId (g + k), b.description, false⟩ := by
  induction l generalizing g k with
  | nil => cases hb
  | cons c l ih =>
    cases k with
    | zero =>
      simp only [List.getElem?_cons_zero] at hb
      injection hb with hb
      subst hb
      simp [freshBlockersFrom]
    | succ n =>
      simp only [List.getElem?_cons_succ] at hb
      have h1 := ih (g + 1) n hb
      simp only [freshBlockersFrom, List.getElem?_cons_succ, h1]
      have : g + 1 + n = g + (n + 1) := by omega
      rw [this]

/-! ## Claim theorems -/

/-- Claim C4: for every current progress value p and every update carrying
progress delta d (a missing delta counting as 0), the reducer sets the new
progress to max(0, min(100, p + d)); in particular p=95, d=20 gives 100 and
p=5, d=-20 gives 0, so progress always stays in [0, 100]. -/
theorem c4_progress_clamped (p : Project) (u : ConsultancyUpdate) (g : Nat) :
    (applyUpdate p u g).1.progress
        = max 0 (min 100 (p.progress + u.progressUpdate.getD 0))
      ∧ 0 ≤ (applyUpdate p u g).1.progress
      ∧ (applyUpdate p u g).1.progress ≤ 100
      ∧ clampProgress 95 (some 20) = 100
      ∧ clampProgress 5 (some (-20)) = 0 := by
  have h : (applyUpdate p u g).1.progress
      = clampProgress p.progress u.progressUpdate := rfl
  refine ⟨rfl, ?_, ?_, ?_, ?_⟩
  · rw [h]
    exact le_max_left 0 _
  · rw [h]
    exact max_le (by norm_num) (min_le_left _ _)
  · norm_num [clampProgress]
  · norm_num [clampProgress]

/-- Claim C9: for every project state and every update, the reducer changes
only the tasks, progress, blockers, priorities, and suggestedActions fields
of the project; projectName, projectType, projectGoals, stakeholders,
timeline, and resources in the returned project are identical to those of
the input project. -/
theorem c9_frame_fields_preserved (p : Project) (u : ConsultancyUpdate) (g : Nat) :
    (applyUpdate p u g).1.projectName = p.projectName
      ∧ (applyUpdate p u g).1.projectType = p.projectType
      ∧ (applyUpdate p u g).1.projectGoals = p.projectGoals
      ∧ (applyUpdate p u g).1.stakeholders = p.stakeholders
      ∧ (applyUpdate p u g).1.timeline = p.timeline
      ∧ (applyUpdate p u g).1.resources = p.resources :=
  ⟨rfl, rfl, rfl, rfl, rfl, rfl⟩

/-- Claim C3: if the Gateway call of a conversational turn fails, the
project document is left unchanged, exactly one ai chat message containing
the fixed apology text is appended to the chat history, and the loading
flag returns to false. -/
theorem c3_gateway_failure_turn (proj : Project) (chat : List ChatMessage)
    (loading : Bool) (message now : String) (g : Nat) :
    handleSendMessage ⟨some proj, chat, loading⟩ message now (Except.error ()) g
        = (⟨some proj,
            chat ++ [⟨Sender.user, message, now⟩, ⟨Sender.ai, apologyText, now⟩],
            false⟩, g)
      ∧ List.filter (fun m => m.sender == Sender.ai)
            [(⟨Sender.user, message, now⟩ : ChatMessage),
             ⟨Sender.ai, apologyText, now⟩]
          = [⟨Sender.ai, apologyText, now⟩] := by
  constructor
  · show ((⟨some proj, (chat ++ [⟨Sender.user, message, now⟩])
        ++ [⟨Sender.ai, apologyText, now⟩], false⟩ : AppState), g) = _
    rw [List.append_assoc]
    rfl
  · rfl

/-- Claim C8: if the priorityUpdate of an update is present, the reducer
adds its speed and scope deltas (each defaulting to 0 when omitted) to the
running speed and scope totals, so two successive updates with speed deltas
2 and -1 leave speed at net +1 relative to the start; if priorityUpdate is
absent, both priority fields are unchanged. -/
theorem c8_priority_accumulation (p : Project) (u : ConsultancyUpdate) (g : Nat) :
    (∀ pu, u.priorityUpdate = some pu →
        (applyUpdate p u g).1.priorities
          = ⟨p.priorities.speed + pu.speed.getD 0,
             p.priorities.scope + pu.scope.getD 0⟩)
      ∧ (u.priorityUpdate = none →
          (applyUpdate p u g).1.priorities = p.priorities)
      ∧ ∀ (u1 u2 : ConsultancyUpdate) (g1 g2 : Nat),
          u1.priorityUpdate = some ⟨some 2, none⟩ →
          u2.priorityUpdate = some ⟨some (-1), none⟩ →
          (applyUpdate (applyUpdate p u1 g1).1 u2 g2).1.priorities.speed
              = p.priorities.speed + 1
            ∧ (applyUpdate (applyUpdate p u1 g1).1 u2 g2).1.priorities.scope
              = p.priorities.scope := by
  have h : ∀ (q : Project) (v : ConsultancyUpdate) (g0 : Nat),
      (applyUpdate q v g0).1.priorities = applyPriorities q.priorities v.priorityUpdate :=
    fun _ _ _ => rfl
  refine ⟨?_, ?_, ?_⟩
  · intro pu hpu
    rw [h, hpu]
    rfl
  · intro hpu
    rw [h, hpu]
    rfl
  · intro u1 u2 g1 g2 h1 h2
    rw [h, h, h1, h2]
    constructor
    · simp [applyPriorities]
      omega
    · simp [applyPriorities]

/-- Claim C7: for every update whose blockers field contains N entries, the
reducer appends exactly N new Blockers to the end of the blocker list, each
with a fresh id, the given description, and resolved = false, in the same
order as the input; pre-existing blockers are never modified or removed by
this path, so the blocker list never shrinks through updates. -/
theorem c7_blockers_append_only (p : Project) (u : ConsultancyUpdate) (g : Nat) :
    (∀ inputs, u.blockers = some inputs →
        (applyUpdate p u g).1.blockers
            = p.blockers
              ++ freshBlockersFrom (applyTaskUpdates p.tasks g u.taskUpdates).2 inputs
          ∧ (applyUpdate p u g).1.blockers.length
              = p.blockers.length + inputs.length
          ∧ (applyUpdate p u g).1.blockers.take p.blockers.length = p.blockers
          ∧ ∀ k b, inputs[k]? = some b →
              (applyUpdate p u g).1.blockers[p.blockers.length + k]?
                = some ⟨generateId ((applyTaskUpdates p.tasks g u.taskUpdates).2 + k),
                        b.description, false⟩)
      ∧ (u.blockers = none → (applyUpdate p u g).1.blockers = p.blockers)
      ∧ p.blockers.length ≤ (applyUpdate p u g).1.blockers.length := by
  have h : (applyUpdate p u g).1.blockers
      = (applyBlockers p.blockers (applyTaskUpdates p.tasks g u.taskUpdates).2
          u.blockers).1 := rfl
  refine ⟨?_, ?_, ?_⟩
  · intro inputs hin
    rw [h, hin, applyBlockers_some]
    refine ⟨rfl, ?_, List.take_left _ _, ?_⟩
    · simp [freshBlockersFrom_length]
    · intro k b hb
      rw [List.getElem?_append_right (Nat.le_add_right _ _)]
      rw [Nat.add_sub_cancel_left]
      exact freshBlockersFrom_getElem? _ k inputs b hb
  · intro hin
    rw [h, hin, applyBlockers_none]
  · rw [h]
    cases hin : u.blockers with
    | none => rw [applyBlockers_none]
    | some inputs =>
      rw [applyBlockers_some]
      simp

/-- Claim C1 (amended): the target task of a task-update entry is the
first (earliest-position) task whose id equals the taskId of the entry or
whose name equals the name of the entry, in a single pass; matching is
case-sensitive exact string equality, and an id match at a later position
does not take precedence over a name match at an earlier one. -/
theorem c1_target_resolution_first_disjunctive_match (tasks : List Task)
    (u : TaskUpdate) (i : Nat) :
    findExistingTaskIndex tasks u = some i ↔
      ∃ t, tasks[i]? = some t
        ∧ (u.taskId = some t.id ∨ t.name = u.name)
        ∧ ∀ t2 ∈ tasks.take i, ¬(u.taskId = some t2.id ∨ t2.name = u.name) := by
  rw [findExistingTaskIndex, findIdx?_eq_some_char]
  constructor
  · rintro ⟨t, ht, hpt, hall⟩
    refine ⟨t, ht, ?_, ?_⟩
    · simpa [Bool.or_eq_true, beq_iff_eq] using hpt
    · intro t2 ht2
      have h2 := hall t2 ht2
      simpa [Bool.or_eq_true, beq_iff_eq] using h2
  · rintro ⟨t, ht, hpt, hall⟩
    refine ⟨t, ht, ?_, ?_⟩
    · simpa [Bool.or_eq_true, beq_iff_eq] using hpt
    · intro t2 ht2
      have h2 := hall t2 ht2
      simpa [Bool.or_eq_true, beq_iff_eq] using h2

/-- Tasks used by the counterexample to claim C1 as stated: the first task
matches the update by name only, the second matches it by id. -/
def tasksC1 : List Task :=
  [⟨"a", "X", "", TaskStatus.notStarted, []⟩,
   ⟨"b", "Y", "", TaskStatus.notStarted, []⟩]

/-- A task update whose taskId points at the second task of `tasksC1`
while its name equals the name of the first. -/
def updC1 : TaskUpdate :=
  ⟨some "b", "X", none, some TaskStatus.completed, TaskAction.update⟩

/-- Claim C1 counterexample: the claim predicts that an id match anywhere
in the list takes precedence over a name match, so `updC1` should resolve
to index 1 of `tasksC1` (the task with id "b"); the code resolves it to
index 0 (the earlier task, matched by name) and patches that task, leaving
the id-matched task untouched. -/
theorem c1_counterexample :
    resolveTargetSpec tasksC1 updC1 = some 1
      ∧ findExistingTaskIndex tasksC1 updC1 = some 0
      ∧ (applyTaskUpdate (tasksC1, 0) updC1).1
          = [⟨"a", "X", "", TaskStatus.completed, []⟩,
             ⟨"b", "Y", "", TaskStatus.notStarted, []⟩] :=
  ⟨rfl, rfl, rfl⟩

/-- Claim C2 (amended): while a Gateway request is in flight (the loading
flag is set), a manual text send and a suggested-action click are both
rejected, but the per-task mark-completed control is not guarded by the
loading flag: whether it fires is independent of the flag, so it can start
a second in-flight request. -/
theorem c2_loading_guard_except_mark_completed (p : Project)
    (message act taskId : String) (status : TaskStatus) (loading : Bool) :
    sendFires p true (SendEvent.manualSend message) = false
      ∧ sendFires p true (SendEvent.suggestedAction act) = false
      ∧ sendFires p loading (SendEvent.markCompleted taskId status)
          = sendFires p true (SendEvent.markCompleted taskId status) := by
  refine ⟨?_, rfl, rfl⟩
  simp [sendFires]

/-- A project with one not-yet-completed task, used to exhibit the
unguarded mark-completed send path. -/
def projC2 : Project :=
  { projectName := "Recipe App"
    projectType := "Web App"
    projectGoals := []
    tasks := [⟨"t1", "Design schema", "", TaskStatus.notStarted, []⟩]
    progress := 0
    priorities := ⟨0, 0⟩
    stakeholders := []
    timeline := ⟨"", ""⟩
    blockers := []
    resources := []
    suggestedActions := [] }

/-- Claim C2 counterexample: with the loading flag set (a request already
in flight), clicking the mark-completed control of task "t1" still fires a
new send, so not every user-initiated send is rejected while loading. -/
theorem c2_counterexample :
    sendFires projC2 true (SendEvent.markCompleted "t1" TaskStatus.completed)
      = true := rfl

/-- Claim C5: for every task-update entry with action update or complete:
if a target task is matched, only those of its name/description/status
fields for which the entry supplies a non-empty value are overwritten and
all other fields keep their previous values (a partial patch); if no task
matches, the entry is a no-op on the task list (a dangling reference is
silently dropped, not an error). -/
theorem c5_partial_patch (tasks : List Task) (g : Nat) (u : TaskUpdate)
    (ha : u.action = TaskAction.update ∨ u.action = TaskAction.complete) :
    (findExistingTaskIndex tasks u = none →
        applyTaskUpdate (tasks, g) u = (tasks, g))
      ∧ ∀ i t, findExistingTaskIndex tasks u = some i → tasks[i]? = some t →
          applyTaskUpdate (tasks, g) u
            = (tasks.take i
                ++ ({ id := t.id
                      name := if u.name = "" then t.name else u.name
                      description := match u.description with
                        | some d => if d = "" then t.description else d
                        | none => t.description
                      status := match u.status with
                        | some s2 => s2
                        | none => t.status
                      subtasks := t.subtasks } : Task) :: tasks.drop (i + 1), g) := by
  constructor
  · intro hnone
    rcases ha with h1 | h1 <;> simp [applyTaskUpdate, hnone, h1]
  · intro i t hsome ht
    have hpatch : patchTask t u
        = { id := t.id
            name := if u.name = "" then t.name else u.name
            description := match u.description with
              | some d => if d = "" then t.description else d
              | none => t.description
            status := match u.status with
              | some s2 => s2
              | none => t.status
            subtasks := t.subtasks } := by
      cases hd : u.description <;> cases hs0 : u.status <;>
        simp [patchTask, jsOrString, hd, hs0]
    rcases ha with h1 | h1 <;>
      simp [applyTaskUpdate, hsome, h1, updateAt_eq_of_getElem? tasks i _ t ht, hpatch]

/-- Concrete instance for claim C5, the spec example itself: patching task
(name A, description D, status NotStarted) with an update carrying action
update, name A, status InProgress and no description leaves the
description in place and changes only the status. -/
theorem c5_witness :
    applyTaskUpdate ([⟨"a1", "A", "D", TaskStatus.notStarted, []⟩], 7)
        ⟨none, "A", none, some TaskStatus.inProgress, TaskAction.update⟩
      = ([⟨"a1", "A", "D", TaskStatus.inProgress, []⟩], 7) := by
  have h := (c5_partial_patch [⟨"a1", "A", "D", TaskStatus.notStarted, []⟩] 7
      ⟨none, "A", none, some TaskStatus.inProgress, TaskAction.update⟩
      (Or.inl rfl)).2 0 ⟨"a1", "A", "D", TaskStatus.notStarted, []⟩ rfl rfl
  simpa using h

/-- Claim C6: for every task-update entry with action add: if a task
already matches (by id or name), the task list is left unchanged (the add
is idempotent, no duplicate is appended); if no task matches, exactly one
new task is appended at the end with a freshly generated id, the given
name, the given description defaulting to the empty string, the given
status defaulting to not-started, and empty subtasks. -/
theorem c6_add_idempotent_or_append (tasks : List Task) (g : Nat)
    (u : TaskUpdate) (ha : u.action = TaskAction.add) :
    (∀ i, findExistingTaskIndex tasks u = some i →
        applyTaskUpdate (tasks, g) u = (tasks, g))
      ∧ (findExistingTaskIndex tasks u = none →
          applyTaskUpdate (tasks, g) u
            = (tasks ++ [{ id := generateId g
                           name := u.name
                           description := u.description.getD ""
                           status := u.status.getD TaskStatus.notStarted
                           subtasks := [] }], g + 1)) := by
  constructor
  · intro i hsome
    simp [applyTaskUpdate, hsome, ha]
  · intro hnone
    have hnew : newTaskOf g u
        = { id := generateId g
            name := u.name
            description := u.description.getD ""
            status := u.status.getD TaskStatus.notStarted
            subtasks := [] } := by
      simp [newTaskOf, jsOrString_empty_default]
    simp [applyTaskUpdate, hnone, ha, hnew]

/-- Concrete instance for claim C6, the spec idempotence example: an add
whose name matches an existing task is a no-op on the task list. -/
theorem c6_witness :
    applyTaskUpdate ([⟨"a1", "A", "D", TaskStatus.notStarted, []⟩], 3)
        ⟨none, "A", some "E", none, TaskAction.add⟩
      = ([⟨"a1", "A", "D", TaskStatus.notStarted, []⟩], 3) :=
  (c6_add_idempotent_or_append [⟨"a1", "A", "D", TaskStatus.notStarted, []⟩] 3
      ⟨none, "A", some "E", none, TaskAction.add⟩ rfl).1 0 rfl

/-- Claim C10: the per-task status-change handler never mutates the project
or any task directly: when the given taskId matches an existing task and
the requested status is Completed, its only effect is to send a
synthesized user chat message through the normal send path; for any other
requested status, or a taskId matching no task, it does nothing at all. -/
theorem c10_status_change_routes_through_send (s : AppState) (p : Project)
    (taskId : String) (status : TaskStatus) (now : String)
    (result : Except Unit ConsultancyUpdate) (g : Nat) :
    (status ≠ TaskStatus.completed →
        handleTaskStatusChange s taskId status now result g = (s, g))
      ∧ (s.project = none →
          handleTaskStatusChange s taskId status now result g = (s, g))
      ∧ (s.project = some p → p.tasks.find? (fun t => t.id == taskId) = none →
          handleTaskStatusChange s taskId status now result g = (s, g))
      ∧ ∀ task, s.project = some p →
          p.tasks.find? (fun t => t.id == taskId) = some task →
          status = TaskStatus.completed →
          handleTaskStatusChange s taskId status now result g
            = handleSendMessage s (completedTaskMessage task.name) now result g := by
  refine ⟨?_, ?_, ?_, ?_⟩
  · intro hst
    cases hs : s.project with
    | none => simp [handleTaskStatusChange, hs]
    | some q =>
      cases hf : q.tasks.find? (fun t => t.id == taskId) with
      | none => simp [handleTaskStatusChange, hs, hf]
      | some task => simp [handleTaskStatusChange, hs, hf, hst]
  · intro hs
    simp [handleTaskStatusChange, hs]
  · intro hs hf
    simp [handleTaskStatusChange, hs, hf]
  · intro task hs hf hst
    simp [handleTaskStatusChange, hs, hf, hst]

end ProjectConsultant
